import Mathlib

/-!
# Verification of `imu_csv.py` (Raspberry Pi SenseHat motion logger)

Shallow embedding of the single source file `src/imu_csv.py`.  Standard
input is modelled as a list of characters; `select.select` readiness is
"the stream is non-empty"; Python's `sys.stdin.readline()` /
`input()` / `sys.stdin.read(1)` become explicit stream consumers.  An
uncaught `KeyError` (the dictionary lookups in `select_mode` and
`display_mode`) is modelled by an explicit error result, and the
sampling loop of `log_orientation` becomes a step function over an
explicit state, driven by an environment of sensor/clock streams.
-/

namespace ImuCsv

/-! ## Colors and LED patterns (lines 37-80 of the source) -/

abbrev Color := Nat × Nat × Nat

def red : Color := (255, 0, 0)

def green : Color := (0, 255, 0)

def blue : Color := (0, 0, 255)

def cyan : Color := (0, 255, 255)

def pink : Color := (255, 0, 255)

def yellow : Color := (255, 255, 0)

def black : Color := (0, 0, 0)

/-- lock pick mode pattern for 8x8 RGB LED array -/
def pick_led_pattern : List Color := [
  black, blue, black, black, cyan, cyan, cyan, black,
  blue, black, blue, black, black, cyan, black, black,
  blue, blue, black, black, black, cyan, black, black,
  blue, black, black, black, cyan, cyan, cyan, black,
  black, pink, pink, black, yellow, black, black, black,
  pink, black, black, black, yellow, black, yellow, black,
  pink, black, black, black, yellow, yellow, black, black,
  black, pink, pink, black, yellow, black, yellow, black
]

/-- key mode pattern for 8x8 RGB LED array -/
def key_led_pattern : List Color := [
  black, black, black, black, black, black, black, black,
  black, black, black, black, black, yellow, yellow, black,
  black, black, black, black, yellow, black, black, yellow,
  yellow, yellow, yellow, yellow, yellow, black, black, yellow,
  yellow, black, yellow, black, yellow, black, black, yellow,
  yellow, black, yellow, black, black, yellow, yellow, black,
  black, black, black, black, black, black, black, black,
  black, black, black, black, black, black, black, black
]

/-- no key mode pattern for 8x8 RGB LED array -/
def nokey_led_pattern : List Color := [
  red, black, black, black, black, black, black, red,
  black, red, black, black, black, yellow, red, black,
  black, black, red, black, yellow, red, black, yellow,
  yellow, yellow, yellow, red, red, black, black, yellow,
  yellow, black, yellow, red, red, black, black, yellow,
  yellow, black, red, black, black, red, yellow, black,
  black, red, black, black, black, black, red, black,
  red, black, black, black, black, black, black, red
]

/-! ## Standard-input stream model -/

/-- Split one line off a character stream: the characters before the
first newline, and the rest of the stream after that newline (the
newline itself is consumed).  This is `sys.stdin.readline()` minus the
trailing newline. -/
def splitLine : List Char → List Char × List Char
  | [] => ([], [])
  | c :: rest =>
    if c = '\n' then ([], rest)
    else
      let p := splitLine rest
      (c :: p.1, p.2)

/-- Python's `input()`: returns the next line (without its newline) and
the remaining stream, or `none` on `EOFError` (stream exhausted). -/
def inputLine (stdin : List Char) : Option (String × List Char) :=
  if stdin.isEmpty then none
  else some (String.mk (splitLine stdin).1, (splitLine stdin).2)

/-! ## `keyboard_handler` (lines 83-92) -/

/-- Model of `keyboard_handler()`: `select.select` with a
zero timeout reports readiness iff input is queued (stream non-empty).
When ready, the handler itself calls `sys.stdin.readline()` — consuming
one full line, whose text is bound to a local and discarded — and
returns `True`; otherwise it returns `False` without touching the
stream.  Result: (returned boolean, stream after the call). -/
def keyboard_handler (stdin : List Char) : Bool × List Char :=
  if stdin.isEmpty then (false, stdin)
  else (true, (splitLine stdin).2)

/-! ## `select_mode` (lines 124-145) -/

/-- The dictionary literal in `select_mode`, keyed by the digit
character that was read. -/
def mode_switch (c : Char) : Option String :=
  if c = '1' then some "pick"
  else if c = '2' then some "key"
  else if c = '3' then some "nokey"
  else none

/-- The `sys.stdin.read(1)` loop of `select_mode`: skip characters until
the first digit; `none` when the stream has no digit at all (at EOF
`read(1)` returns the empty string forever, so the `while` loop never
exits — the call blocks). -/
def firstDigit : List Char → Option (Char × List Char)
  | [] => none
  | c :: rest => if c.isDigit then some (c, rest) else firstDigit rest

/-- Outcome of a call to `select_mode`. -/
inductive SelectResult where
  /-- returned normally with a mode string and the remaining stream -/
  | ok (mode : String) (rest : List Char)
  /-- the dictionary lookup raised an uncaught `KeyError` on this key -/
  | keyError (key : String)
  /-- the digit-scanning loop never terminates (no digit in the stream) -/
  | blocked
deriving DecidableEq

/-- Model of `select_mode()`: read single characters until a digit is found, then
look the digit up in the `{"1": "pick", "2": "key", "3": "nokey"}`
dictionary; a digit outside the dictionary raises `KeyError`. -/
def select_mode (stdin : List Char) : SelectResult :=
  match firstDigit stdin with
  | none => .blocked
  | some (c, rest) =>
    match mode_switch c with
    | none => .keyError (String.mk [c])
    | some m => .ok m rest

/-! ## `set_name` (lines 107-121) -/

theorem splitLine_snd_length_lt (s : List Char) (h : s ≠ []) :
    (splitLine s).2.length < s.length := by
  induction s with
  | nil => exact absurd rfl h
  | cons c rest ih =>
    simp only [splitLine]
    by_cases hc : c = '\n'
    · simp [hc]
    · simp only [hc, if_false, List.length_cons]
      rcases List.eq_nil_or_concat rest with hrest | _
      · subst hrest; simp [splitLine]
      · have := ih (by rintro rfl; simp_all)
        omega

theorem inputLine_length_lt {stdin : List Char} {l : String} {rest : List Char}
    (h : inputLine stdin = some (l, rest)) : rest.length < stdin.length := by
  unfold inputLine at h
  by_cases he : stdin.isEmpty
  · simp [he] at h
  · simp only [if_neg he, Option.some.injEq, Prod.mk.injEq] at h
    rw [← h.2]
    exact splitLine_snd_length_lt stdin (by simpa [List.isEmpty_iff] using he)

/-- The body of `set_name`: `name_check` starts as `"N"`, and the loop
`while (name_check.find("N") != -1) or (name_check.find("n") != -1)`
reads a name line and then a confirmation line each pass.  The model
returns the final `name`, the final value of the loop variable
`name_check`, and the remaining stream; `none` models `EOFError` from
`input()` at end of stream. -/
def set_name_loop (name name_check : String) (stdin : List Char) :
    Option (String × String × List Char) :=
  if name_check.data.contains 'N' || name_check.data.contains 'n' then
    match h1 : inputLine stdin with
    | none => none
    | some (name1, s1) =>
      match h2 : inputLine s1 with
      | none => none
      | some (check1, s2) => set_name_loop name1 check1 s2
  else
    some (name, name_check, stdin)
termination_by stdin.length
decreasing_by
  exact Nat.lt_trans (inputLine_length_lt h2) (inputLine_length_lt h1)

/-- Model of `set_name()`: the loop variable `name_check` is initialised to
`"N"`, so the loop body always runs at least once; the `name` local is
unassigned before the loop (placeholder `""` here, never returned). -/
def set_name (stdin : List Char) : Option (String × String × List Char) :=
  set_name_loop "" "N" stdin

/-! ## `display_mode` (lines 148-158) -/

/-- The dictionary literal in `display_mode`, from mode string to LED
pattern; a mode outside the dictionary raises `KeyError` (`none`). -/
def pattern_switch (mode : String) : Option (List Color) :=
  if mode = "pick" then some pick_led_pattern
  else if mode = "key" then some key_led_pattern
  else if mode = "nokey" then some nokey_led_pattern
  else none

/-- Model of `sense.set_pixels(pattern)`: one atomic write replacing the whole
64-cell display contents. -/
def set_pixels (display pattern : List Color) : List Color := pattern

/-- Model of `display_mode(mode)` acting on a display state: look the mode up in
the pattern dictionary and push the pattern; `none` is an uncaught
`KeyError`. -/
def display_mode (display : List Color) (mode : String) : Option (List Color) :=
  (pattern_switch mode).map (set_pixels display)

/-! ## Decimal rendering and the timestamp format

`datetime.now().strftime("%m/%d/%Y_%H:%M:%S")` is modelled field by
field: the two-digit fields are zero-padded, the year is printed in
decimal.  To reason about the characters produced by `toString` on
`Nat` we first characterise `Nat.repr`. -/

/-- Decimal digit characters of `n`, most significant first: the
reference characterisation of `Nat.repr`. -/
def decChars (n : Nat) : List Char :=
  if n < 10 then [Nat.digitChar n]
  else decChars (n / 10) ++ [Nat.digitChar (n % 10)]
termination_by n
decreasing_by exact Nat.div_lt_self (by omega) (by omega)

theorem toDigitsCore_eq_decChars (n : Nat) :
    ∀ fuel ds, n < fuel → Nat.toDigitsCore 10 fuel n ds = decChars n ++ ds := by
  induction n using Nat.strong_induction_on with
  | _ n ih =>
    intro fuel ds hlt
    match fuel with
    | 0 => omega
    | f + 1 =>
      by_cases h10 : n < 10
      · have hdiv : n / 10 = 0 := by omega
        simp only [Nat.toDigitsCore, hdiv, if_pos rfl]
        rw [decChars, if_pos h10]
        have : n % 10 = n := by omega
        simp [this]
      · have hdiv : ¬ n / 10 = 0 := by omega
        simp only [Nat.toDigitsCore, if_neg hdiv]
        rw [ih (n / 10) (by omega) f (Nat.digitChar (n % 10) :: ds) (by omega)]
        conv_rhs => rw [decChars, if_neg h10]
        simp

theorem toString_nat_data (n : Nat) : (toString n).data = decChars n := by
  show (Nat.repr n).data = decChars n
  unfold Nat.repr Nat.toDigits
  rw [toDigitsCore_eq_decChars n (n + 1) [] (by omega)]
  simp [List.asString]

theorem digitChar_isDigit (m : Nat) (h : m < 10) :
    (Nat.digitChar m).isDigit = true := by
  interval_cases m <;> decide

/-- Zero-padding to two characters: the behaviour of the strftime
fields `%m`, `%d`, `%H`, `%M`, `%S`. -/
def pad2 (n : Nat) : String :=
  if n < 10 then "0" ++ toString n else toString n

theorem decChars_two (n : Nat) (h1 : 10 ≤ n) (h2 : n < 100) :
    decChars n = [Nat.digitChar (n / 10), Nat.digitChar (n % 10)] := by
  rw [decChars, if_neg (by omega), decChars, if_pos (by omega)]
  simp

theorem pad2_shape (n : Nat) (h : n < 100) :
    ∃ a b, (pad2 n).data = [a, b] ∧ a.isDigit = true ∧ b.isDigit = true := by
  unfold pad2
  by_cases h10 : n < 10
  · refine ⟨'0', Nat.digitChar n, ?_, rfl, digitChar_isDigit n h10⟩
    rw [if_pos h10]
    have : (("0" ++ toString n)).data = '0' :: (toString n).data := by
      simp [String.data_append]
    rw [this, toString_nat_data, decChars, if_pos h10]
  · refine ⟨Nat.digitChar (n / 10), Nat.digitChar (n % 10), ?_,
      digitChar_isDigit _ (by omega), digitChar_isDigit _ (by omega)⟩
    rw [if_neg h10, toString_nat_data, decChars_two n (by omega) h]

theorem decChars_four (y : Nat) (h1 : 1000 ≤ y) (h2 : y < 10000) :
    decChars y = [Nat.digitChar (y / 1000), Nat.digitChar (y / 100 % 10),
      Nat.digitChar (y / 10 % 10), Nat.digitChar (y % 10)] := by
  have e1 : y / 10 / 10 = y / 100 := by omega
  have e2 : y / 100 / 10 = y / 1000 := by omega
  rw [decChars, if_neg (by omega), decChars, if_neg (by omega), e1,
    decChars, if_neg (by omega), e2, decChars, if_pos (by omega)]
  simp

theorem year_shape (y : Nat) (h1 : 1000 ≤ y) (h2 : y < 10000) :
    ∃ a b c d, (toString y).data = [a, b, c, d] ∧ a.isDigit = true ∧
      b.isDigit = true ∧ c.isDigit = true ∧ d.isDigit = true := by
  refine ⟨Nat.digitChar (y / 1000), Nat.digitChar (y / 100 % 10),
    Nat.digitChar (y / 10 % 10), Nat.digitChar (y % 10), ?_,
    digitChar_isDigit _ (by omega), digitChar_isDigit _ (by omega),
    digitChar_isDigit _ (by omega), digitChar_isDigit _ (by omega)⟩
  rw [toString_nat_data, decChars_four y h1 h2]

/-- Wall-clock date and time, the fields `datetime.now()` provides to
`strftime`. -/
structure DateTime where
  month : Nat
  day : Nat
  year : Nat
  hour : Nat
  minute : Nat
  second : Nat
deriving DecidableEq

/-- Model of `datetime.now().strftime("%m/%d/%Y_%H:%M:%S")` (line 217 of the
source): `%m`, `%d`, `%H`, `%M`, `%S` zero-padded to two digits, `%Y`
the decimal year. -/
def strftime_timestamp (t : DateTime) : String :=
  pad2 t.month ++ "/" ++ pad2 t.day ++ "/" ++ toString t.year ++ "_" ++
    pad2 t.hour ++ ":" ++ pad2 t.minute ++ ":" ++ pad2 t.second

/-- The shape `MM/DD/YYYY_HH:MM:SS`: nineteen characters, digits in the
numeric positions and the literal separators in between. -/
def isTimestampFormat (s : String) : Bool :=
  match s.data with
  | [m1, m2, s1, d1, d2, s2, y1, y2, y3, y4, u1, h1, h2, c1, n1, n2, c2, e1, e2] =>
    m1.isDigit && m2.isDigit && (s1 = '/') && d1.isDigit && d2.isDigit &&
    (s2 = '/') && y1.isDigit && y2.isDigit && y3.isDigit && y4.isDigit &&
    (u1 = '_') && h1.isDigit && h2.isDigit && (c1 = ':') && n1.isDigit &&
    n2.isDigit && (c2 = ':') && e1.isDigit && e2.isDigit
  | _ => false

/-- Field bounds under which the strftime output has the documented
`MM/DD/YYYY_HH:MM:SS` shape (true of every date `datetime.now()` can
return between the years 1000 and 9999). -/
def DateTimeBounded (t : DateTime) : Prop :=
  t.month < 100 ∧ t.day < 100 ∧ 1000 ≤ t.year ∧ t.year < 10000 ∧
    t.hour < 100 ∧ t.minute < 100 ∧ t.second < 100

theorem strftime_timestamp_format (t : DateTime) (h : DateTimeBounded t) :
    isTimestampFormat (strftime_timestamp t) = true := by
  obtain ⟨hm, hd, hy1, hy2, hh, hn, hs⟩ := h
  obtain ⟨a1, a2, ea, da1, da2⟩ := pad2_shape t.month hm
  obtain ⟨b1, b2, eb, db1, db2⟩ := pad2_shape t.day hd
  obtain ⟨y1, y2, y3, y4, ey, dy1, dy2, dy3, dy4⟩ := year_shape t.year hy1 hy2
  obtain ⟨c1, c2, ec, dc1, dc2⟩ := pad2_shape t.hour hh
  obtain ⟨n1, n2, en, dn1, dn2⟩ := pad2_shape t.minute hn
  obtain ⟨s1, s2, es, ds1, ds2⟩ := pad2_shape t.second hs
  have hdata : (strftime_timestamp t).data =
      [a1, a2, '/', b1, b2, '/', y1, y2, y3, y4, '_',
        c1, c2, ':', n1, n2, ':', s1, s2] := by
    unfold strftime_timestamp
    simp [String.data_append, ea, eb, ey, ec, en, es]
  unfold isTimestampFormat
  rw [hdata]
  simp [da1, da2, db1, db2, dy1, dy2, dy3, dy4, dc1, dc2, dn1, dn2, ds1, ds2]

/-! ## `log_orientation` (lines 162-226): the sampling loop

The external world the loop consumes — sensor, clocks, operator name,
session start time — is packaged as an `Env` of streams indexed by the
iteration counter; the loop itself becomes a step function on an
explicit `LoopState`. -/

/-- Result of `sense.get_orientation_degrees()`: roll/pitch/yaw in degrees. -/
structure Orientation where
  roll : ℚ
  pitch : ℚ
  yaw : ℚ
deriving DecidableEq

/-- Result of `sense.get_accelerometer_raw()`: raw x/y/z acceleration. -/
structure Accel where
  x : ℚ
  y : ℚ
  z : ℚ
deriving DecidableEq

/-- The environment of one logging session: the values the external
calls return at each loop iteration, plus the session-fixed operator
name and `start_time` (the `time.time()` reading taken before the
loop). -/
structure Env where
  orient : Nat → Orientation
  accel : Nat → Accel
  /-- Value of `time.time()` as read inside iteration `k` -/
  clock : Nat → ℚ
  /-- Value of `datetime.now()` as read inside iteration `k` -/
  wall : Nat → DateTime
  name : String
  start_time : ℚ

/-- One sample: the `data` list of an iteration, kept with its numeric
fields (the CSV rendering is `csvRow`). -/
structure Record where
  roll : ℚ
  pitch : ℚ
  yaw : ℚ
  x : ℚ
  y : ℚ
  z : ℚ
  timestamp : String
  runtime : ℚ
  mode : String
  name : String
deriving DecidableEq

/-- The `data` list assembled at iteration `k` while in mode `mode`
(lines 210-220 of the source). -/
def mkRecord (env : Env) (k : Nat) (mode : String) : Record :=
  { roll := (env.orient k).roll
    pitch := (env.orient k).pitch
    yaw := (env.orient k).yaw
    x := (env.accel k).x
    y := (env.accel k).y
    z := (env.accel k).z
    timestamp := strftime_timestamp (env.wall k)
    runtime := env.clock k - env.start_time
    mode := mode
    name := env.name }

/-- Model of `writer.writerow(data)`: the ten CSV fields of a record, in the
order the source appends them. -/
def csvRow (r : Record) : List String :=
  [toString r.roll, toString r.pitch, toString r.yaw,
    toString r.x, toString r.y, toString r.z,
    r.timestamp, toString r.runtime, r.mode, r.name]

/-- The `csv_header` list of line 179. -/
def csv_header : List String :=
  ["roll", "pitch", "yaw", "x", "y", "z", "timestamp", "runtime", "mode", "name"]

/-- State of the sampling loop: current mode, the unread part of
standard input, the records appended so far, the LED display contents
and the iteration counter (which indexes the environment streams). -/
structure LoopState where
  mode : String
  stdin : List Char
  recs : List Record
  display : List Color
  iter : Nat
deriving DecidableEq

/-- Outcome of one loop iteration. -/
inductive StepResult where
  /-- the iteration completed and the loop continues from this state -/
  | ok (st : LoopState)
  /-- an uncaught `KeyError` on this key ends the process abnormally -/
  | keyError (key : String)
  /-- a blocking read never returns (no digit left in the stream) -/
  | blocked
deriving DecidableEq

/-- One iteration of the `while True` loop (lines 187-226): call
`keyboard_handler()`; if it reports input, reselect the mode via
`select_mode()` and do nothing else; otherwise render the current
mode's pattern, sample the sensor, and append one record. -/
def logStep (env : Env) (st : LoopState) : StepResult :=
  let kb := keyboard_handler st.stdin
  if kb.1 then
    match select_mode kb.2 with
    | .blocked => .blocked
    | .keyError k => .keyError k
    | .ok m rest =>
        .ok { st with mode := m, stdin := rest, iter := st.iter + 1 }
  else
    match display_mode st.display st.mode with
    | none => .keyError st.mode
    | some disp =>
        .ok { st with display := disp,
                      recs := st.recs ++ [mkRecord env st.iter st.mode],
                      iter := st.iter + 1 }

/-- Run `n` iterations of the loop (or stop at the first abnormal
outcome). -/
def logRun (env : Env) : Nat → LoopState → StepResult
  | 0, st => .ok st
  | n + 1, st =>
    match logStep env st with
    | .ok st1 => logRun env n st1
    | .keyError k => .keyError k
    | .blocked => .blocked

/-- The loop state right after setup: initial mode chosen, header
already written (`recs` empty — the header is prepended by
`fileRows`), iteration counter zero. -/
def initState (mode0 : String) (stdin : List Char) (display0 : List Color) :
    LoopState :=
  { mode := mode0, stdin := stdin, recs := [], display := display0, iter := 0 }

/-- Contents of the session CSV file: the header row written once
before the loop (line 185), then one row per appended record. -/
def fileRows (st : LoopState) : List (List String) :=
  csv_header :: st.recs.map csvRow

/-! ## `sigint_handler` (lines 95-104) -/

/-- Whole-process observable state at the moment the interrupt signal
arrives. -/
structure ProgState where
  display : List Color
  stdout : List String
  exitCode : Option Nat
  rows : List (List String)
deriving DecidableEq

/-- Model of `sense.clear()`: every one of the 64 cells set to off (black). -/
def sense_clear : List Color := List.replicate 64 black

/-- Model of `sigint_handler(signal_received, frame)`: print the exit message,
clear the LED array, `exit(0)`.  The open CSV file is not touched. -/
def sigint_handler (st : ProgState) : ProgState :=
  { st with stdout := st.stdout ++ ["Exiting logger script"],
            display := sense_clear,
            exitCode := some 0 }

/-! ## Shared concrete fixtures and helper lemmas -/

/-- A concrete environment: constant sensor readings, a constant clock
and a fixed wall-clock date. -/
def envUnit : Env :=
  { orient := fun _ => ⟨0, 0, 0⟩
    accel := fun _ => ⟨0, 0, 0⟩
    clock := fun _ => 0
    wall := fun _ => ⟨1, 1, 2024, 0, 0, 0⟩
    name := "op"
    start_time := 0 }

theorem firstDigit_append (junk : List Char) (c : Char) (rest : List Char)
    (hjunk : ∀ x ∈ junk, x.isDigit = false) (hc : c.isDigit = true) :
    firstDigit (junk ++ c :: rest) = some (c, rest) := by
  induction junk with
  | nil => simp [firstDigit, hc]
  | cons a tl ih =>
    have ha : a.isDigit = false := hjunk a (List.mem_cons_self a tl)
    simp only [List.cons_append, firstDigit, ha, Bool.false_eq_true, if_false]
    exact ih fun x hx => hjunk x (List.mem_cons_of_mem a hx)

theorem select_mode_ok_mode {s : List Char} {m : String} {rest : List Char}
    (h : select_mode s = .ok m rest) :
    m ∈ (["pick", "key", "nokey"] : List String) := by
  unfold select_mode at h
  cases hfd : firstDigit s with
  | none => rw [hfd] at h; cases h
  | some p =>
    obtain ⟨c, r⟩ := p
    rw [hfd] at h
    unfold mode_switch at h
    by_cases h1 : c = '1'
    · simp [h1] at h; simp [h.1.symm]
    · by_cases h2 : c = '2'
      · simp [h1, h2] at h; simp [h.1.symm]
      · by_cases h3 : c = '3'
        · simp [h1, h2, h3] at h; simp [h.1.symm]
        · simp [h1, h2, h3] at h

/-! ## C4 -/

/-- C4: `select_mode` discards leading non-digit characters until a
digit is found and maps it with the closed mapping 1→pick, 2→key,
3→nokey; a first digit of 1, 2 or 3 yields the corresponding mode
name, and any other digit yields an uncaught `KeyError` — never a
value from the valid mode set and never a silent default. -/
theorem select_mode_closed_mapping (junk : List Char) (c : Char) (rest : List Char)
    (hjunk : ∀ x ∈ junk, x.isDigit = false) (hc : c.isDigit = true) :
    select_mode (junk ++ c :: rest) =
      (if c = '1' then .ok "pick" rest
       else if c = '2' then .ok "key" rest
       else if c = '3' then .ok "nokey" rest
       else .keyError (String.mk [c])) := by
  unfold select_mode
  rw [firstDigit_append junk c rest hjunk hc]
  unfold mode_switch
  by_cases h1 : c = '1'
  · simp [h1]
  · by_cases h2 : c = '2'
    · simp [h1, h2]
    · by_cases h3 : c = '3'
      · simp [h1, h2, h3]
      · simp [h1, h2, h3]

/-- C4 witness: a stray newline is skipped and the digit 2 maps to
mode "key", leaving the rest of the stream unread. -/
theorem select_mode_closed_mapping_witness :
    select_mode ("\n2x".data) = .ok "key" ("x".data) :=
  (select_mode_closed_mapping ['\n'] '2' ("x".data) (by decide) (by decide)).trans
    (by decide)

/-! ## C5 (corrected) -/

/-- C5 counterexample: the operator enters the unrecognized digit "4"
(with a valid "2" queued right behind it).  `select_mode` does not
re-prompt: the dictionary lookup raises `KeyError("4")`, and when this
happens during the sampling loop the iteration itself ends in the
uncaught `KeyError` — the failure propagates past the mode-switch
boundary instead of being handled there. -/
theorem select_mode_invalid_digit_cex :
    select_mode ("4\n2\n".data) = .keyError "4" ∧
    select_mode ("4\n2\n".data) ≠ .ok "key" ("\n".data) ∧
    logStep envUnit (initState "pick" ("\n4\n2\n".data) []) = .keyError "4" := by
  refine ⟨by decide, by decide, ?_⟩
  decide

/-- C5 amended: an unrecognized mode digit is NOT recoverable — there
is no re-prompt.  Whenever the first digit of the stream is outside
the mapping, `select_mode` raises `KeyError` on that digit, and if
this happens at the mode-switch inside the sampling loop the error
propagates out of the iteration (terminating the process). -/
theorem select_mode_invalid_digit_keyerror (s : List Char) (c : Char) (rest : List Char)
    (hfd : firstDigit s = some (c, rest)) (hc : mode_switch c = none) :
    select_mode s = .keyError (String.mk [c]) ∧
    (∀ (env : Env) (st : LoopState), st.stdin ≠ [] → (splitLine st.stdin).2 = s →
      logStep env st = .keyError (String.mk [c])) := by
  have hsel : select_mode s = .keyError (String.mk [c]) := by
    unfold select_mode
    rw [hfd]
    simp [hc]
  refine ⟨hsel, fun env st hne hsp => ?_⟩
  unfold logStep keyboard_handler
  have : st.stdin.isEmpty = false := by simpa [List.isEmpty_iff] using hne
  simp only [this, Bool.false_eq_true, if_false, if_true, hsp, hsel]

/-- C5 amended witness: digit "4" after the discarded trigger line. -/
theorem select_mode_invalid_digit_keyerror_witness :
    select_mode ("4\n2\n".data) = .keyError "4" ∧
    logStep envUnit (initState "pick" ("\n4\n2\n".data) []) = .keyError "4" := by
  have h := select_mode_invalid_digit_keyerror ("4\n2\n".data) '4' ("\n2\n".data)
    (by decide) (by decide)
  exact ⟨h.1, h.2 envUnit (initState "pick" ("\n4\n2\n".data) []) (by decide) (by decide)⟩

/-! ## C6 (corrected) -/

/-- C6 counterexample: with the line "3" queued, `keyboard_handler`
returns true but does NOT leave the stream untouched for the caller —
it reads (and discards) the whole queued line itself, leaving the
stream empty. -/
theorem keyboard_handler_consumes_cex :
    (keyboard_handler ("3\n".data)).1 = true ∧
    (keyboard_handler ("3\n".data)).2 = [] ∧
    (keyboard_handler ("3\n".data)).2 ≠ "3\n".data := by
  refine ⟨by decide, by decide, by decide⟩

/-- C6 amended: the Input Watcher performs a zero-wait check and
returns true exactly when input is queued; it consumes nothing when
nothing is pending, but when input IS pending it itself reads and
discards one full line before returning true — the blocking read left
to the caller then sees only the input after that line. -/
theorem keyboard_handler_pending_reads_line :
    keyboard_handler [] = (false, []) ∧
    (∀ s : List Char, s ≠ [] → keyboard_handler s = (true, (splitLine s).2)) := by
  constructor
  · decide
  · intro s hs
    unfold keyboard_handler
    have : s.isEmpty = false := by simpa [List.isEmpty_iff] using hs
    simp [this]

/-- C6 amended witness: queued line "3" is consumed whole. -/
theorem keyboard_handler_pending_reads_line_witness :
    keyboard_handler ("3\n".data) = (true, []) :=
  ((keyboard_handler_pending_reads_line.2 ("3\n".data) (by decide)).trans (by decide))

/-! ## C10 -/

/-- C10: whenever the keyboard handler finds input pending it reads
and discards one full line before returning true; the mode-selection
read inside the loop therefore sees only the stream after that line —
and if nothing follows the discarded line, that read blocks until
fresh input arrives. -/
theorem keyboard_handler_discards_triggering_line (env : Env) (st : LoopState)
    (hpend : st.stdin ≠ []) :
    keyboard_handler st.stdin = (true, (splitLine st.stdin).2) ∧
    (∀ st1, logStep env st = .ok st1 →
      select_mode ((splitLine st.stdin).2) = .ok st1.mode st1.stdin) ∧
    ((splitLine st.stdin).2 = [] → logStep env st = .blocked) := by
  have hemp : st.stdin.isEmpty = false := by simpa [List.isEmpty_iff] using hpend
  have hkb : keyboard_handler st.stdin = (true, (splitLine st.stdin).2) := by
    unfold keyboard_handler; simp [hemp]
  refine ⟨hkb, ?_, ?_⟩
  · intro st1 hstep
    unfold logStep at hstep
    rw [hkb] at hstep
    simp only [if_true] at hstep
    cases hsel : select_mode ((splitLine st.stdin).2) with
    | ok m rest =>
      rw [hsel] at hstep
      cases hstep
      rfl
    | keyError k => rw [hsel] at hstep; cases hstep
    | blocked => rw [hsel] at hstep; cases hstep
  · intro hnil
    unfold logStep
    rw [hkb]
    simp only [if_true, hnil]
    rfl

/-- C10 witness: the operator's "3" line is discarded by the watcher;
the subsequent mode selection reads the fresh "2" line. -/
theorem keyboard_handler_discards_triggering_line_witness :
    keyboard_handler ("3\n2\n".data) = (true, "2\n".data) ∧
    select_mode ("2\n".data) = .ok "key" ("\n".data) := by
  have h := keyboard_handler_discards_triggering_line envUnit
    (initState "pick" ("3\n2\n".data) []) (by decide)
  refine ⟨h.1.trans (by decide), ?_⟩
  have h2 := h.2.1 ⟨"key", "\n".data, [], [], 1⟩ (by decide)
  exact h2.trans (by decide)

/-! ## C8 -/

/-- C8: on the interrupt signal the program shuts down in a controlled
way — exactly the rows already appended remain, the display is set to
the uniform all-off state, the exit message is printed, and the
process exits with status 0. -/
theorem sigint_controlled_shutdown (st : ProgState) :
    (sigint_handler st).rows = st.rows ∧
    (sigint_handler st).display = List.replicate 64 black ∧
    (sigint_handler st).stdout = st.stdout ++ ["Exiting logger script"] ∧
    (sigint_handler st).exitCode = some 0 := by
  refine ⟨rfl, rfl, rfl, rfl⟩

/-! ## C9 -/

/-- C9: for each of the three modes, `display_mode` writes the one
fixed 64-entry pattern of that mode in a single `set_pixels` write;
the write is independent of the previous display contents
(deterministic) and repeating it leaves the display unchanged
(idempotent). -/
theorem display_mode_deterministic_idempotent (d : List Color) :
    display_mode d "pick" = some pick_led_pattern ∧
    display_mode d "key" = some key_led_pattern ∧
    display_mode d "nokey" = some nokey_led_pattern ∧
    pick_led_pattern.length = 64 ∧ key_led_pattern.length = 64 ∧
    nokey_led_pattern.length = 64 ∧
    (∀ (d2 : List Color) (m : String), display_mode d m = display_mode d2 m) ∧
    (∀ (m : String) (p : List Color), display_mode d m = some p →
      display_mode p m = some p) := by
  refine ⟨rfl, rfl, rfl, by decide, by decide, by decide, ?_, ?_⟩
  · intro d2 m
    unfold display_mode set_pixels
    rfl
  · intro m p h
    unfold display_mode set_pixels at h ⊢
    cases hps : pattern_switch m with
    | none => rw [hps] at h; cases h
    | some q =>
      rw [hps] at h
      simpa using h

/-- C9 witness: rendering "pick" onto a display already showing the
pick pattern writes the same pattern again. -/
theorem display_mode_deterministic_idempotent_witness :
    display_mode pick_led_pattern "pick" = some pick_led_pattern := by
  have h := display_mode_deterministic_idempotent []
  exact h.2.2.2.2.2.2.2 "pick" pick_led_pattern h.1

/-! ## C7 -/

theorem set_name_loop_stop (name check : String) (stdin : List Char)
    (h : (check.data.contains 'N' || check.data.contains 'n') = false) :
    set_name_loop name check stdin = some (name, check, stdin) := by
  unfold set_name_loop
  simp only [h, Bool.false_eq_true, if_false]

theorem set_name_loop_eof1 (name check : String) (stdin : List Char)
    (h : (check.data.contains 'N' || check.data.contains 'n') = true)
    (h1 : inputLine stdin = none) :
    set_name_loop name check stdin = none := by
  unfold set_name_loop
  simp only [h, if_true]
  split
  · rfl
  · simp_all

theorem set_name_loop_eof2 (name check : String) (stdin : List Char)
    (name1 : String) (s1 : List Char)
    (h : (check.data.contains 'N' || check.data.contains 'n') = true)
    (h1 : inputLine stdin = some (name1, s1)) (h2 : inputLine s1 = none) :
    set_name_loop name check stdin = none := by
  unfold set_name_loop
  simp only [h, if_true]
  split
  · simp_all
  · rename_i heq
    rw [h1] at heq
    injection heq with heq
    cases heq
    split
    · rfl
    · simp_all

theorem set_name_loop_continue (name check : String) (stdin : List Char)
    (name1 : String) (s1 : List Char) (check1 : String) (s2 : List Char)
    (h : (check.data.contains 'N' || check.data.contains 'n') = true)
    (h1 : inputLine stdin = some (name1, s1))
    (h2 : inputLine s1 = some (check1, s2)) :
    set_name_loop name check stdin = set_name_loop name1 check1 s2 := by
  conv_lhs => rw [set_name_loop]
  simp only [h, if_true]
  split
  · simp_all
  · rename_i heq
    rw [h1] at heq
    injection heq with heq
    cases heq
    split
    · simp_all
    · rename_i heq2
      rw [h2] at heq2
      injection heq2 with heq2
      cases heq2
      rfl

/-- C7: the name-confirmation loop keeps prompting exactly while the
confirmation answer contains a negative token ('N' or 'n'): a rejected
confirmation only consumes one more name/confirmation pair and
re-enters the loop, and whenever `set_name` returns, the final
confirmation answer contains no negative token. -/
theorem set_name_negative_token_loop :
    (∀ (name check : String) (stdin : List Char) (nm ck : String) (rest : List Char),
      set_name_loop name check stdin = some (nm, ck, rest) →
      ck.data.contains 'N' = false ∧ ck.data.contains 'n' = false) ∧
    (∀ (name check : String) (stdin : List Char) (name1 : String) (s1 : List Char)
      (check1 : String) (s2 : List Char),
      (check.data.contains 'N' || check.data.contains 'n') = true →
      inputLine stdin = some (name1, s1) → inputLine s1 = some (check1, s2) →
      set_name_loop name check stdin = set_name_loop name1 check1 s2) := by
  constructor
  · have main : ∀ (L : Nat) (name check : String) (stdin : List Char),
        stdin.length ≤ L → ∀ (nm ck : String) (rest : List Char),
        set_name_loop name check stdin = some (nm, ck, rest) →
        ck.data.contains 'N' = false ∧ ck.data.contains 'n' = false := by
      intro L
      induction L with
      | zero =>
        intro name check stdin hlen nm ck rest h
        by_cases hcond : (check.data.contains 'N' || check.data.contains 'n') = true
        · have hstdin : stdin = [] := by
            cases stdin with
            | nil => rfl
            | cons a tl => simp at hlen
          rw [set_name_loop_eof1 name check stdin hcond
            (by rw [hstdin]; rfl)] at h
          cases h
        · have hfalse : (check.data.contains 'N' || check.data.contains 'n') = false :=
            Bool.not_eq_true _ ▸ hcond
          rw [set_name_loop_stop name check stdin hfalse] at h
          injection h with h
          injection h with h_nm h
          injection h with h_ck h_rest
          subst h_ck
          exact Bool.or_eq_false_iff.mp hfalse
      | succ L ih =>
        intro name check stdin hlen nm ck rest h
        by_cases hcond : (check.data.contains 'N' || check.data.contains 'n') = true
        · cases hi1 : inputLine stdin with
          | none =>
            rw [set_name_loop_eof1 name check stdin hcond hi1] at h
            cases h
          | some p1 =>
            obtain ⟨name1, s1⟩ := p1
            cases hi2 : inputLine s1 with
            | none =>
              rw [set_name_loop_eof2 name check stdin name1 s1 hcond hi1 hi2] at h
              cases h
            | some p2 =>
              obtain ⟨check1, s2⟩ := p2
              rw [set_name_loop_continue name check stdin name1 s1 check1 s2
                hcond hi1 hi2] at h
              have l1 := inputLine_length_lt hi1
              have l2 := inputLine_length_lt hi2
              exact ih name1 check1 s2 (by omega) nm ck rest h
        · have hfalse : (check.data.contains 'N' || check.data.contains 'n') = false :=
            Bool.not_eq_true _ ▸ hcond
          rw [set_name_loop_stop name check stdin hfalse] at h
          injection h with h
          injection h with h_nm h
          injection h with h_ck h_rest
          subst h_ck
          exact Bool.or_eq_false_iff.mp hfalse
    exact fun name check stdin => main stdin.length name check stdin le_rfl
  · exact set_name_loop_continue

/-- C7 witness: "Bob" is rejected with answer "no" (contains 'n'), the
loop re-prompts, "Alice" is accepted with answer "yes" — which
contains no negative token. -/
theorem set_name_negative_token_loop_witness :
    set_name_loop "" "N" ("Bob\nno\nAlice\nyes\n".data) = some ("Alice", "yes", []) ∧
    "yes".data.contains 'N' = false ∧ "yes".data.contains 'n' = false := by
  have e1 := set_name_negative_token_loop.2 "" "N" ("Bob\nno\nAlice\nyes\n".data)
    "Bob" ("no\nAlice\nyes\n".data) "no" ("Alice\nyes\n".data)
    (by decide) (by decide) (by decide)
  have e2 := set_name_negative_token_loop.2 "Bob" "no" ("Alice\nyes\n".data)
    "Alice" ("yes\n".data) "yes" [] (by decide) (by decide) (by decide)
  have e3 : set_name_loop "Alice" "yes" [] = some ("Alice", "yes", []) :=
    set_name_loop_stop _ _ _ (by decide)
  have h := (e1.trans e2).trans e3
  exact ⟨h, set_name_negative_token_loop.1 "" "N" _ "Alice" "yes" [] h⟩

/-! ## Loop step characterisations -/

theorem logStep_pending (env : Env) (st : LoopState) (hpend : st.stdin ≠ []) :
    logStep env st =
      (match select_mode ((splitLine st.stdin).2) with
       | .blocked => .blocked
       | .keyError k => .keyError k
       | .ok m rest => .ok { st with mode := m, stdin := rest, iter := st.iter + 1 }) := by
  have hemp : st.stdin.isEmpty = false := by simpa [List.isEmpty_iff] using hpend
  unfold logStep keyboard_handler
  simp [hemp]

theorem logStep_sample (env : Env) (st : LoopState) (pat : List Color)
    (hnil : st.stdin = []) (hpat : pattern_switch st.mode = some pat) :
    logStep env st = .ok { st with
      display := pat
      recs := st.recs ++ [mkRecord env st.iter st.mode]
      iter := st.iter + 1 } := by
  unfold logStep keyboard_handler display_mode set_pixels
  simp [hnil, hpat]

theorem pattern_switch_of_valid (m : String)
    (h : m ∈ (["pick", "key", "nokey"] : List String)) :
    ∃ pat, pattern_switch m = some pat := by
  simp only [List.mem_cons, List.mem_singleton, List.not_mem_nil, or_false] at h
  rcases h with rfl | rfl | rfl <;> exact ⟨_, rfl⟩

theorem logRun_succ (env : Env) (n : Nat) (st : LoopState) :
    logRun env (n + 1) st =
      (match logStep env st with
       | .ok st1 => logRun env n st1
       | .keyError k => .keyError k
       | .blocked => .blocked) := rfl

/-- With no queued input, every iteration samples: `n` iterations run
normally, the mode never changes, and exactly one record per iteration
is appended, in iteration order, each tagged with the current mode. -/
theorem logRun_no_input (env : Env) : ∀ (n : Nat) (st : LoopState) (pat : List Color),
    st.stdin = [] → pattern_switch st.mode = some pat →
    ∃ st1, logRun env n st = .ok st1 ∧ st1.mode = st.mode ∧ st1.stdin = [] ∧
      st1.iter = st.iter + n ∧
      st1.recs = st.recs ++
        (List.range n).map (fun j => mkRecord env (st.iter + j) st.mode) := by
  intro n
  induction n with
  | zero =>
    intro st pat hnil hpat
    exact ⟨st, rfl, rfl, hnil, rfl, by simp⟩
  | succ n ih =>
    intro st pat hnil hpat
    obtain ⟨st2, hrun, hmode, hnil2, hiter, hrecs⟩ :=
      ih { st with
             display := pat
             recs := st.recs ++ [mkRecord env st.iter st.mode]
             iter := st.iter + 1 } pat hnil hpat
    dsimp only at hiter hrecs
    refine ⟨st2, ?_, hmode, hnil2, by omega, ?_⟩
    · rw [logRun_succ, logStep_sample env st pat hnil hpat]
      exact hrun
    · rw [hrecs]
      simp only [List.range_succ_eq_map, List.map_cons, List.map_map, Function.comp]
      simp only [show ∀ j : Nat, st.iter + 1 + j = st.iter + (j + 1) from
        fun j => by omega]
      simp [List.append_assoc]

/-! ## C1 -/

/-- C1: mode-change and sampling are mutually exclusive per iteration.
When input is pending, the iteration only performs the mode transition
through `select_mode` (applied to the stream after the discarded
trigger line): no record is appended and the display is untouched.
When no input is pending, the iteration renders the current mode's
pattern, samples, and appends exactly one record tagged with the
current mode.  With no further input, every subsequent record carries
the new mode unchanged. -/
theorem loop_mode_switch_sampling_exclusive (env : Env) (st : LoopState) (n : Nat) :
    (st.stdin ≠ [] → ∀ st1, logStep env st = .ok st1 →
      st1.recs = st.recs ∧ st1.display = st.display ∧
      select_mode ((splitLine st.stdin).2) = .ok st1.mode st1.stdin) ∧
    (∀ pat, st.stdin = [] → pattern_switch st.mode = some pat →
      logStep env st = .ok { st with
        display := pat
        recs := st.recs ++ [mkRecord env st.iter st.mode]
        iter := st.iter + 1 }) ∧
    (∀ pat, st.stdin = [] → pattern_switch st.mode = some pat →
      ∃ st1, logRun env n st = .ok st1 ∧ st1.mode = st.mode ∧
        st1.recs = st.recs ++
          (List.range n).map (fun j => mkRecord env (st.iter + j) st.mode)) := by
  refine ⟨?_, ?_, ?_⟩
  · intro hpend st1 hstep
    rw [logStep_pending env st hpend] at hstep
    cases hsel : select_mode ((splitLine st.stdin).2) with
    | ok m rest =>
      rw [hsel] at hstep
      cases hstep
      exact ⟨rfl, rfl, by simpa using hsel⟩
    | keyError k => rw [hsel] at hstep; cases hstep
    | blocked => rw [hsel] at hstep; cases hstep
  · intro pat hnil hpat
    exact logStep_sample env st pat hnil hpat
  · intro pat hnil hpat
    obtain ⟨st1, hrun, hmode, _, _, hrecs⟩ := logRun_no_input env n st pat hnil hpat
    exact ⟨st1, hrun, hmode, hrecs⟩

/-- C1 witness: a pending "3" line switches the mode to "nokey" with no
record appended; from an empty stream, two iterations in mode "pick"
append exactly the two records of iterations 0 and 1. -/
theorem loop_mode_switch_sampling_exclusive_witness :
    ((⟨"nokey", "\n".data, [], [], 1⟩ : LoopState).recs =
        (initState "pick" ("x\n3\n".data) []).recs ∧
      (⟨"nokey", "\n".data, [], [], 1⟩ : LoopState).display =
        (initState "pick" ("x\n3\n".data) []).display ∧
      select_mode ((splitLine (initState "pick" ("x\n3\n".data) []).stdin).2) =
        .ok (⟨"nokey", "\n".data, [], [], 1⟩ : LoopState).mode
          (⟨"nokey", "\n".data, [], [], 1⟩ : LoopState).stdin) ∧
    (∃ st1, logRun envUnit 2 (initState "pick" [] []) = .ok st1 ∧
      st1.mode = "pick" ∧
      st1.recs = [] ++ (List.range 2).map
        (fun j => mkRecord envUnit (0 + j) "pick")) := by
  constructor
  · exact (loop_mode_switch_sampling_exclusive envUnit
      (initState "pick" ("x\n3\n".data) []) 0).1 (by decide)
      ⟨"nokey", "\n".data, [], [], 1⟩ (by decide)
  · exact (loop_mode_switch_sampling_exclusive envUnit
      (initState "pick" [] []) 2).2.2 pick_led_pattern rfl rfl


/-! ## C2 -/

/-- The `runtime` column of the records appended so far. -/
def runtimes (st : LoopState) : List Rat := st.recs.map (fun r => r.runtime)

theorem logStep_ok_cases (env : Env) (st st1 : LoopState)
    (h : logStep env st = .ok st1) :
    st1.iter = st.iter + 1 ∧
    ((st1.recs = st.recs ∧
        select_mode ((splitLine st.stdin).2) = .ok st1.mode st1.stdin) ∨
      (st1.recs = st.recs ++ [mkRecord env st.iter st.mode] ∧
        st1.mode = st.mode)) := by
  by_cases hpend : st.stdin = []
  · unfold logStep keyboard_handler display_mode set_pixels at h
    simp only [hpend, List.isEmpty_nil, if_true] at h
    cases hps : pattern_switch st.mode with
    | none => rw [hps] at h; cases h
    | some pat =>
      rw [hps] at h
      simp only [Option.map] at h
      cases h
      exact ⟨rfl, Or.inr ⟨rfl, rfl⟩⟩
  · rw [logStep_pending env st hpend] at h
    cases hsel : select_mode ((splitLine st.stdin).2) with
    | ok m rest =>
      rw [hsel] at h
      cases h
      exact ⟨rfl, Or.inl ⟨rfl, by simpa using hsel⟩⟩
    | keyError k => rw [hsel] at h; cases h
    | blocked => rw [hsel] at h; cases h

/-- Invariant carried through the loop: the runtime column is a
≤-chain of non-negative values, bounded by the clock at the next
iteration. -/
def RuntimeInv (env : Env) (st : LoopState) : Prop :=
  List.Chain' (· ≤ ·) (runtimes st) ∧
  ∀ r ∈ st.recs, 0 ≤ r.runtime ∧ r.runtime + env.start_time ≤ env.clock st.iter

theorem chain_append_singleton {l : List Rat} {x : Rat}
    (hc : List.Chain' (· ≤ ·) l) (hall : ∀ y ∈ l, y ≤ x) :
    List.Chain' (· ≤ ·) (l ++ [x]) := by
  rw [List.chain'_append]
  refine ⟨hc, List.chain'_singleton x, ?_⟩
  intro a ha y hy
  simp only [List.head?_cons, Option.mem_def, Option.some.injEq] at hy
  subst hy
  obtain ⟨hne, heq⟩ := List.mem_getLast?_eq_getLast ha
  subst heq
  exact hall _ (List.getLast_mem hne)

theorem runtimeInv_step (env : Env)
    (hmono : ∀ i j : Nat, i ≤ j → env.clock i ≤ env.clock j)
    (hstart : env.start_time ≤ env.clock 0)
    (st st1 : LoopState) (hinv : RuntimeInv env st)
    (h : logStep env st = .ok st1) : RuntimeInv env st1 := by
  obtain ⟨hchain, hbound⟩ := hinv
  obtain ⟨hiter, ⟨hrecs, -⟩ | ⟨hrecs, -⟩⟩ := logStep_ok_cases env st st1 h
  · constructor
    · show List.Chain' _ (st1.recs.map _)
      rw [hrecs]
      exact hchain
    · intro r hr
      rw [hrecs] at hr
      obtain ⟨h0, hb⟩ := hbound r hr
      exact ⟨h0, le_trans hb (hmono st.iter st1.iter (by omega))⟩
  · constructor
    · show List.Chain' _ (st1.recs.map _)
      rw [hrecs, List.map_append]
      apply chain_append_singleton hchain
      intro y hy
      simp only [runtimes, List.mem_map] at hy
      obtain ⟨r, hr, rfl⟩ := hy
      have hb := (hbound r hr).2
      have hx : (mkRecord env st.iter st.mode).runtime =
          env.clock st.iter - env.start_time := rfl
      linarith [hb, hx]
    · intro r hr
      rw [hrecs] at hr
      rcases List.mem_append.mp hr with hr | hr
      · obtain ⟨h0, hb⟩ := hbound r hr
        exact ⟨h0, le_trans hb (hmono st.iter st1.iter (by omega))⟩
      · simp only [List.mem_singleton] at hr
        subst hr
        have hup : env.clock st.iter ≤ env.clock st1.iter :=
          hmono st.iter st1.iter (by omega)
        have hlow : env.start_time ≤ env.clock st.iter :=
          le_trans hstart (hmono 0 st.iter (Nat.zero_le _))
        have hx : (mkRecord env st.iter st.mode).runtime =
            env.clock st.iter - env.start_time := rfl
        exact ⟨by linarith [hx], by linarith [hx]⟩

theorem runtimeInv_run (env : Env)
    (hmono : ∀ i j : Nat, i ≤ j → env.clock i ≤ env.clock j)
    (hstart : env.start_time ≤ env.clock 0) :
    ∀ (n : Nat) (st st1 : LoopState), RuntimeInv env st →
    logRun env n st = .ok st1 → RuntimeInv env st1 := by
  intro n
  induction n with
  | zero =>
    intro st st1 hinv h
    injection h with h
    subst h
    exact hinv
  | succ n ih =>
    intro st st1 hinv h
    rw [logRun_succ] at h
    cases hs : logStep env st with
    | ok st2 =>
      rw [hs] at h
      exact ih st2 st1 (runtimeInv_step env hmono hstart st st2 hinv hs) h
    | keyError k => rw [hs] at h; cases h
    | blocked => rw [hs] at h; cases h

/-- C2: provided the wall clock never moves backwards, the `runtime`
column of every session is non-decreasing and its first value is
≥ 0; one iteration appends at most one record, always at the end of
the store (exact sampling order, nothing dropped or duplicated). -/
theorem loop_runtime_ordered (env : Env)
    (hmono : ∀ i j : Nat, i ≤ j → env.clock i ≤ env.clock j)
    (hstart : env.start_time ≤ env.clock 0)
    (mode0 : String) (stdin0 : List Char) (d0 : List Color) (n : Nat)
    (st1 : LoopState)
    (h : logRun env n (initState mode0 stdin0 d0) = .ok st1) :
    List.Chain' (· ≤ ·) (runtimes st1) ∧
    (∀ q, (runtimes st1).head? = some q → 0 ≤ q) ∧
    (∀ r ∈ st1.recs, 0 ≤ r.runtime) ∧
    (∀ st2 st3, logStep env st2 = .ok st3 →
      st3.recs = st2.recs ∨
        st3.recs = st2.recs ++ [mkRecord env st2.iter st2.mode]) := by
  have hinv0 : RuntimeInv env (initState mode0 stdin0 d0) :=
    ⟨List.chain'_nil, fun r hr => absurd hr (List.not_mem_nil r)⟩
  have hinv := runtimeInv_run env hmono hstart n
    (initState mode0 stdin0 d0) st1 hinv0 h
  refine ⟨hinv.1, ?_, fun r hr => (hinv.2 r hr).1, ?_⟩
  · intro q hq
    have hqmem : q ∈ runtimes st1 := List.mem_of_mem_head? hq
    obtain ⟨r, hr, rfl⟩ := List.mem_map.mp hqmem
    exact (hinv.2 r hr).1
  · intro st2 st3 hs
    rcases (logStep_ok_cases env st2 st3 hs).2 with ⟨hr, -⟩ | ⟨hr, -⟩
    · exact Or.inl hr
    · exact Or.inr hr

/-- The record of iteration `k` in the fixed environment. -/
def recW (k : Nat) : Record := mkRecord envUnit k "pick"

/-- The loop state after two no-input iterations of `envUnit`. -/
def stW2 : LoopState := ⟨"pick", [], [recW 0, recW 1], pick_led_pattern, 2⟩

/-- C2 witness: two sampled iterations of the constant-clock
environment yield a non-decreasing runtime column starting at 0. -/
theorem loop_runtime_ordered_witness :
    List.Chain' (· ≤ ·) (runtimes stW2) ∧ (0 : Rat) ≤ (recW 0).runtime := by
  have h := loop_runtime_ordered envUnit (fun i j hij => le_refl _)
    (le_refl _) "pick" [] [] 2 stW2 rfl
  refine ⟨h.1, ?_⟩
  exact h.2.2.1 (recW 0) (by simp [stW2])

/-! ## C3 -/

/-- A mode string from the closed mode set. -/
def ModeOk (m : String) : Prop := m ∈ (["pick", "key", "nokey"] : List String)

/-- Invariant: the current mode is valid and every appended record was
assembled by some iteration under a valid mode. -/
def RecsWF (env : Env) (st : LoopState) : Prop :=
  ModeOk st.mode ∧ ∀ r ∈ st.recs, ∃ k m, ModeOk m ∧ r = mkRecord env k m

theorem recsWF_step (env : Env) (st st1 : LoopState)
    (hwf : RecsWF env st) (h : logStep env st = .ok st1) : RecsWF env st1 := by
  obtain ⟨hmode, hrecs⟩ := hwf
  obtain ⟨-, ⟨hr, hsel⟩ | ⟨hr, hm⟩⟩ := logStep_ok_cases env st st1 h
  · exact ⟨select_mode_ok_mode hsel, fun r hmem => hrecs r (hr ▸ hmem)⟩
  · refine ⟨hm ▸ hmode, fun r hmem => ?_⟩
    rw [hr] at hmem
    rcases List.mem_append.mp hmem with hmem | hmem
    · exact hrecs r hmem
    · simp only [List.mem_singleton] at hmem
      exact ⟨st.iter, st.mode, hmode, hmem⟩

theorem recsWF_run (env : Env) :
    ∀ (n : Nat) (st st1 : LoopState), RecsWF env st →
    logRun env n st = .ok st1 → RecsWF env st1 := by
  intro n
  induction n with
  | zero =>
    intro st st1 hwf h
    injection h with h
    subst h
    exact hwf
  | succ n ih =>
    intro st st1 hwf h
    rw [logRun_succ] at h
    cases hs : logStep env st with
    | ok st2 =>
      rw [hs] at h
      exact ih st2 st1 (recsWF_step env st st2 hwf hs) h
    | keyError k => rw [hs] at h; cases h
    | blocked => rw [hs] at h; cases h

theorem modeOk_ne_mode_label {m : String} (h : ModeOk m) : m ≠ "mode" := by
  simp only [ModeOk, List.mem_cons, List.mem_singleton, List.not_mem_nil,
    or_false] at h
  rcases h with rfl | rfl | rfl <;> decide

/-- C3: the first row of the session file is the fixed header, written
exactly once and before any sample row; every later row is one sample
whose ten fields appear in exactly the source's order, with the
timestamp in `MM/DD/YYYY_HH:MM:SS` shape. -/
theorem session_file_header_and_rows (env : Env) (mode0 : String)
    (stdin0 : List Char) (d0 : List Color) (n : Nat) (st1 : LoopState)
    (hm0 : mode0 ∈ (["pick", "key", "nokey"] : List String))
    (hwall : ∀ k, DateTimeBounded (env.wall k))
    (h : logRun env n (initState mode0 stdin0 d0) = .ok st1) :
    (fileRows st1).head? = some csv_header ∧
    (∀ row ∈ (fileRows st1).tail,
      row ≠ csv_header ∧ row.length = 10 ∧
      ∃ k m, m ∈ (["pick", "key", "nokey"] : List String) ∧
        row = [toString (env.orient k).roll, toString (env.orient k).pitch,
          toString (env.orient k).yaw, toString (env.accel k).x,
          toString (env.accel k).y, toString (env.accel k).z,
          strftime_timestamp (env.wall k),
          toString (env.clock k - env.start_time), m, env.name] ∧
        isTimestampFormat (strftime_timestamp (env.wall k)) = true) ∧
    (fileRows st1).count csv_header = 1 := by
  have hwf : RecsWF env st1 :=
    recsWF_run env n (initState mode0 stdin0 d0) st1
      ⟨hm0, fun r hr => absurd hr (List.not_mem_nil r)⟩ h
  have htail : ∀ row ∈ (fileRows st1).tail,
      row ≠ csv_header ∧ row.length = 10 ∧
      ∃ k m, m ∈ (["pick", "key", "nokey"] : List String) ∧
        row = [toString (env.orient k).roll, toString (env.orient k).pitch,
          toString (env.orient k).yaw, toString (env.accel k).x,
          toString (env.accel k).y, toString (env.accel k).z,
          strftime_timestamp (env.wall k),
          toString (env.clock k - env.start_time), m, env.name] ∧
        isTimestampFormat (strftime_timestamp (env.wall k)) = true := by
    intro row hrow
    simp only [fileRows, List.tail_cons, List.mem_map] at hrow
    obtain ⟨r, hr, hrow⟩ := hrow
    obtain ⟨k, m, hmOk, hrEq⟩ := hwf.2 r hr
    subst hrEq
    subst hrow
    refine ⟨?_, by simp [csvRow], k, m, hmOk, by simp [csvRow, mkRecord],
      strftime_timestamp_format _ (hwall k)⟩
    intro heq
    have h8 : (csvRow (mkRecord env k m)).get? 8 = csv_header.get? 8 := by
      rw [heq]
    simp only [csvRow, mkRecord, csv_header] at h8
    exact modeOk_ne_mode_label hmOk (by injection h8)
  refine ⟨rfl, htail, ?_⟩
  have hnot : csv_header ∉ (st1.recs.map csvRow) := by
    intro hmem
    exact (htail csv_header hmem).1 rfl
  show ((csv_header :: st1.recs.map csvRow).count csv_header) = 1
  rw [List.count_cons_self, List.count_eq_zero.mpr hnot]

/-- The loop state after one no-input iteration of `envUnit`. -/
def stW1 : LoopState := ⟨"pick", [], [recW 0], pick_led_pattern, 1⟩

/-- C3 witness: one sampled iteration of the fixed environment yields
a file whose head is the header, which occurs exactly once. -/
theorem session_file_header_and_rows_witness :
    (fileRows stW1).head? = some csv_header ∧
    (fileRows stW1).count csv_header = 1 := by
  have h := session_file_header_and_rows envUnit "pick" [] [] 1 stW1
    (by decide)
    (fun _ => show DateTimeBounded ⟨1, 1, 2024, 0, 0, 0⟩ from
      ⟨by decide, by decide, by decide, by decide, by decide, by decide,
        by decide⟩)
    rfl
  exact ⟨h.1, h.2.2⟩
end ImuCsv
